import Mathlib

/-!
Verification of the oroshine clinic appointment-booking core.

This file shallowly embeds the concurrent slot-booking and notification core
of the repository: the booking view and cancellation view
(`oroshine_webapp/views.py`), the cache-invalidation signal handlers
(`oroshine_webapp/signals.py`), the admin status-change actions
(`oroshine_webapp/admin.py`), and the Celery task handlers
(`oroshine_webapp/tasks.py`, `oroshine_webapp/emails.py`).

Modelling conventions:
  - The Redis-backed Django cache is a function `String → Option (CacheVal × Nat)`
    (value together with the TTL in seconds that was passed when storing it).
    TTL expiry is not modelled; entries persist until deleted.
  - The database is a list of `Appointment` rows plus a list of `Doctor` rows.
  - A booking request handler runs as one atomic step: inside the view the
    conflict check and insert are guarded by `transaction.atomic()` together
    with `select_for_update()`, which serialises conflicting writers, so any
    interleaving of handlers on the same slot is equivalent to a sequence.
  - External side effects (emails, enqueued Celery tasks, calendar API calls,
    transaction commits) are recorded as an append-only trace of events.
  - An exception during booking is modelled by the `commitFails` flag: the
    transaction body runs, then the commit raises, the row is rolled back and
    the registered `on_commit` callbacks are discarded (cache operations are
    not transactional and stay applied), and the view answers HTTP 500.
-/

namespace Oroshine

/-- Appointment status, from `STATUS_CHOICES`.  Modelled from the spec:
`models.py` is not among the sources, the spec fixes the five statuses. -/
inductive Status
  | pending
  | confirmed
  | completed
  | cancelled
  | rescheduled
deriving DecidableEq

/-- The string stored in the `status` column for each `Status` value. -/
def Status.str : Status → String
  | .pending => "pending"
  | .confirmed => "confirmed"
  | .completed => "completed"
  | .cancelled => "cancelled"
  | .rescheduled => "rescheduled"

/-- One row of the Appointment table.  Modelled from the spec (the model file
is not among the sources); the fields are the ones the views, tasks and
signals read and write. -/
structure Appointment where
  ulid : String
  userId : Nat
  doctorId : Nat
  date : String
  time : String
  service : String
  name : String
  email : String
  phone : String
  message : String
  status : Status
  calendarEventId : Option String
deriving DecidableEq

/-- One row of the Doctor table (only the fields the tasks read).  Modelled
from the spec; an empty `email` stands for a doctor without contact email
(falsy in the Python guard `not appt.doctor.email`). -/
structure Doctor where
  id : Nat
  email : String
deriving DecidableEq

/-- A value stored in the Django cache. -/
inductive CacheVal
  | tok (t : String)
  | flag
  | slots (ts : List String)
  | blob (s : String)
deriving DecidableEq

/-- The cache: key to value and TTL (seconds).  `none` is an absent key. -/
def Cache := String → Option (CacheVal × Nat)

/-- The empty cache. -/
def emptyCache : Cache := fun _ => none

/-- `cache.get(k)`. -/
def cacheGet (c : Cache) (k : String) : Option CacheVal :=
  (c k).map (fun e => e.1)

/-- `cache.set(k, v, ttl)`. -/
def cacheSet (c : Cache) (k : String) (v : CacheVal) (ttl : Nat) : Cache :=
  fun k' => if k' == k then some (v, ttl) else c k'

/-- `cache.delete(k)`. -/
def cacheDelete (c : Cache) (k : String) : Cache :=
  fun k' => if k' == k then none else c k'

/-- `cache.add(k, v, ttl)`: the atomic set-if-absent-with-TTL primitive.
Returns the new cache and whether the key was stored. -/
def cacheAdd (c : Cache) (k : String) (v : CacheVal) (ttl : Nat) : Cache × Bool :=
  if cacheGet c k = none then (cacheSet c k v ttl, true) else (c, false)

/-- Lock key `lock:slot:{doctor.id}:{date}:{time}` from the booking view. -/
def lockSlotKey (doctorId : Nat) (date time : String) : String :=
  s!"lock:slot:{doctorId}:{date}:{time}"

/-- Availability cache key `slots:{doctor_id}:{date}` used by
`check_slots_ajax` and deleted by the booking and cancel views. -/
def slotsKey (doctorId : Nat) (date : String) : String :=
  s!"slots:{doctorId}:{date}"

/-- Key `available_slots:{date}:{doctor_id}` deleted by the post-save and
post-delete signal handlers in `signals.py`. -/
def availableSlotsKey (date : String) (doctorId : Nat) : String :=
  s!"available_slots:{date}:{doctorId}"

def upcomingKey (userId : Nat) : String := s!"upcoming_appointments:{userId}"

def userStatsKey (userId : Nat) : String := s!"user_appointment_stats:{userId}"

def userProfileKey (userId : Nat) : String := s!"user_profile:{userId}"

def sidebarKey (userId : Nat) : String := s!"sidebar_appt:{userId}"

def homepageStatsKey : String := "homepage_stats"

/-- Idempotency marker key `appointment_email_sent:{ulid}` from `tasks.py`. -/
def emailSentKey (apptUlid : String) : String :=
  s!"appointment_email_sent:{apptUlid}"

/-- Idempotency marker key for the cancellation email task. -/
def cancelEmailSentKey (apptUlid : String) : String :=
  s!"appointment_cancel_email_sent:{apptUlid}"

/-- Externally observable events, in the order they happen. -/
inductive Ev
  | commit
  | enqueue (task : String) (arg : String)
  | emailSend (kind : String) (arg : String)
  | calendarInsert (apptUlid : String)
deriving DecidableEq

/-- Global state: cache, Appointment table, Doctor table, event trace. -/
structure St where
  cache : Cache
  db : List Appointment
  doctors : List Doctor
  trace : List Ev

/-- A JSON view response: `status` and `message` fields plus HTTP code. -/
structure Resp where
  status : String
  message : String
  http : Nat
deriving DecidableEq

/-- `LOCK_TTL = 30` seconds in `views.py`. -/
def LOCK_TTL : Nat := 30

/-- The fixed enumerated time-slot list `TIME_SLOTS` (time value, display).
Modelled from the spec: `models.py` is not among the sources; the tests use
"10:00", "11:00", "12:00" as valid values and "03:00" as invalid. -/
def TIME_SLOTS : List (String × String) :=
  [("09:00", "09:00 AM"), ("10:00", "10:00 AM"), ("11:00", "11:00 AM"),
   ("12:00", "12:00 PM"), ("14:00", "02:00 PM"), ("15:00", "03:00 PM"),
   ("16:00", "04:00 PM"), ("17:00", "05:00 PM")]

/-- The row predicate of the conflict queries: same doctor, date and time and
`status__in=['pending', 'confirmed']`. -/
def isActiveFor (doctorId : Nat) (date time : String) (a : Appointment) : Bool :=
  a.doctorId == doctorId && a.date == date && a.time == time &&
    (a.status == Status.pending || a.status == Status.confirmed)

/-- `Appointment.objects.select_for_update().filter(...).exists()` from the
booking view. -/
def hasSlotConflict (db : List Appointment) (doctorId : Nat) (date time : String) : Bool :=
  db.any (isActiveFor doctorId date time)

/-- The booked-time set the availability endpoint computes from the database. -/
def bookedFromDb (db : List Appointment) (doctorId : Nat) (date : String) : List String :=
  (db.filter (fun a => a.doctorId == doctorId && a.date == date &&
    (a.status == Status.pending || a.status == Status.confirmed))).map
    (fun a => a.time)

/-- Validated booking form data (`form.cleaned_data`). -/
structure BookReq where
  userId : Nat
  doctorId : Nat
  date : String
  time : String
  service : String
  name : String
  email : String
  phone : String
  message : String
deriving DecidableEq

/-- `Appointment.objects.create(..., status='pending')` row contents. -/
def mkAppointment (r : BookReq) (ulid : String) : Appointment :=
  { ulid := ulid, userId := r.userId, doctorId := r.doctorId, date := r.date,
    time := r.time, service := r.service, name := r.name, email := r.email,
    phone := r.phone, message := r.message, status := Status.pending,
    calendarEventId := none }

/-- 409 answer when `cache.add` on the lock key fails. -/
def lockConflictResp : Resp :=
  ⟨"error", "Slot just booked by someone else. Please select another.", 409⟩

/-- 409 answer when the row-level conflict check finds an existing row. -/
def dbConflictResp : Resp :=
  ⟨"error", "This time slot is no longer available.", 409⟩

/-- 500 answer of the `except Exception` branch of the booking view. -/
def bookFailResp : Resp :=
  ⟨"error", "Failed to book appointment. Please try again.", 500⟩

/-- Success answer of the booking view; `message` holds `appointment_id`. -/
def bookSuccessResp (ulid : String) : Resp := ⟨"success", ulid, 200⟩

/-- `signals.invalidate_appointment_cache`: the `post_save` receiver for
Appointment.  Deletes the upcoming-appointments and stats keys of the owning
user, the `available_slots:{date}:{doctor_id}` key and the homepage stats. -/
def invalidateAppointmentCache (c : Cache) (a : Appointment) : Cache :=
  let uid := a.userId
  cacheDelete
    (cacheDelete
      (cacheDelete (cacheDelete c (upcomingKey uid)) (userStatsKey uid))
      (availableSlotsKey a.date a.doctorId))
    homepageStatsKey

/-- `signals.invalidate_appointment_cache_on_delete`: the `post_delete`
receiver; same deletions except the homepage stats key. -/
def invalidateAppointmentCacheOnDelete (c : Cache) (a : Appointment) : Cache :=
  let uid := a.userId
  cacheDelete
    (cacheDelete (cacheDelete c (upcomingKey uid)) (userStatsKey uid))
    (availableSlotsKey a.date a.doctorId)

/-- `views.invalidate_user_cache`. -/
def invalidateUserCache (c : Cache) (userId : Nat) : Cache :=
  cacheDelete
    (cacheDelete (cacheDelete c (userProfileKey userId)) (sidebarKey userId))
    (userStatsKey userId)

/-- The `finally` block of the booking view: token-checked release,
`if cache.get(lock_key) == lock_value: cache.delete(lock_key)`. -/
def releaseLock (c : Cache) (lockKey lockValue : String) : Cache :=
  if cacheGet c lockKey = some (CacheVal.tok lockValue) then cacheDelete c lockKey
  else c

/-- The booking view POST handler (`views.appointment`), one atomic step.
`ulid` is the client-side generated appointment id, `lockValue` the fresh
`str(ULID())` lock token, `commitFails` whether the transaction commit
raises (see the module docstring). -/
def bookHandler (st : St) (r : BookReq) (ulid lockValue : String)
    (commitFails : Bool) : St × Resp :=
  let lockKey := lockSlotKey r.doctorId r.date r.time
  let add := cacheAdd st.cache lockKey (CacheVal.tok lockValue) LOCK_TTL
  if add.2 = false then
    (st, lockConflictResp)
  else
    let c1 := add.1
    if hasSlotConflict st.db r.doctorId r.date r.time then
      ({ st with cache := releaseLock c1 lockKey lockValue,
                 trace := st.trace ++ [Ev.commit] },
       dbConflictResp)
    else
      let appt := mkAppointment r ulid
      let c2 := invalidateAppointmentCache c1 appt
      let c3 := cacheDelete c2 (slotsKey r.doctorId r.date)
      if commitFails then
        ({ st with cache := releaseLock c3 lockKey lockValue }, bookFailResp)
      else
        ({ st with
             cache := releaseLock c3 lockKey lockValue,
             db := st.db ++ [appt],
             trace := st.trace ++
               [Ev.commit,
                Ev.enqueue "send_appointment_email_task" ulid,
                Ev.enqueue "create_calendar_event_task" ulid] },
         bookSuccessResp ulid)

/-- 404 answer of the cancel view's `Appointment.DoesNotExist` branch. -/
def cancelNotFoundResp : Resp := ⟨"error", "Appointment not found", 404⟩

/-- 400 answer when the status guard of the cancel view rejects. -/
def cancelBlockedResp (statusStr : String) : Resp :=
  ⟨"error", s!"Cannot cancel {statusStr} appointment", 400⟩

/-- Success answer of the cancel view. -/
def cancelSuccessResp : Resp :=
  ⟨"success", "Appointment cancelled successfully", 200⟩

/-- `Appointment.objects.get(ulid=appointment_id, user=request.user)`. -/
def findOwned (db : List Appointment) (apptId : String) (userId : Nat) :
    Option Appointment :=
  db.find? (fun a => a.ulid == apptId && a.userId == userId)

/-- Update the status of the row with the given ulid. -/
def setStatusInDb (db : List Appointment) (apptId : String) (s : Status) :
    List Appointment :=
  db.map (fun a => if a.ulid == apptId then { a with status := s } else a)

/-- The cancel view (`views.cancel_appointment`), one atomic step. -/
def cancelHandler (st : St) (userId : Nat) (apptId : String) : St × Resp :=
  match findOwned st.db apptId userId with
  | none => (st, cancelNotFoundResp)
  | some appt =>
    if appt.status = Status.cancelled ∨ appt.status = Status.completed ∨
        appt.status = Status.confirmed then
      ({ st with trace := st.trace ++ [Ev.commit] },
       cancelBlockedResp appt.status.str)
    else
      let appt' := { appt with status := Status.cancelled }
      let c1 := invalidateAppointmentCache st.cache appt'
      let c2 := cacheDelete c1 (slotsKey appt.doctorId appt.date)
      let c3 := invalidateUserCache c2 userId
      ({ st with
           cache := c3,
           db := setStatusInDb st.db apptId Status.cancelled,
           trace := st.trace ++
             [Ev.commit, Ev.enqueue "send_appointment_cancel_email_task" apptId] },
       cancelSuccessResp)

/-- `AppointmentAdmin.save_model` and the `mark_as_*` bulk actions: set the
status directly with no slot-conflict check, fire the `post_save` signal and
enqueue the status-update email task when the status changed. -/
def adminSetStatus (st : St) (apptId : String) (new : Status) : St :=
  match st.db.find? (fun a => a.ulid == apptId) with
  | none => st
  | some appt =>
    if appt.status = new then st
    else
      let appt' := { appt with status := new }
      { st with
          db := setStatusInDb st.db apptId new,
          cache := invalidateAppointmentCache st.cache appt',
          trace := st.trace ++
            [Ev.enqueue "send_appointment_status_update_email_task" apptId] }

/-- Appointment deletion (not part of normal flow); fires the `post_delete`
signal receiver. -/
def deleteAppointment (st : St) (apptId : String) : St :=
  match st.db.find? (fun a => a.ulid == apptId) with
  | none => st
  | some appt =>
    { st with
        db := st.db.filter (fun a => !(a.ulid == apptId)),
        cache := invalidateAppointmentCacheOnDelete st.cache appt }

/-- One availability answer entry of `check_slots_ajax`. -/
structure SlotInfo where
  time : String
  display : String
  isAvailable : Bool
deriving DecidableEq

/-- `views.check_slots_ajax`: read-through cached availability query. -/
def checkSlots (st : St) (doctorId : Nat) (date : String) :
    St × List SlotInfo :=
  let key := slotsKey doctorId date
  match cacheGet st.cache key with
  | some (CacheVal.slots booked) =>
    (st, TIME_SLOTS.map (fun td => ⟨td.1, td.2, !booked.contains td.1⟩))
  | _ =>
    let booked := bookedFromDb st.db doctorId date
    ({ st with cache := cacheSet st.cache key (CacheVal.slots booked) 300 },
     TIME_SLOTS.map (fun td => ⟨td.1, td.2, !booked.contains td.1⟩))

/-- `Doctor` lookup used by the tasks (`select_related("doctor")`). -/
def getDoctor (ds : List Doctor) (i : Nat) : Option Doctor :=
  ds.find? (fun d => d.id == i)

/-- `tasks.send_appointment_email_task`.  The email boundary is modelled as
succeeding; its failure path is only Celery's retry, which re-runs the same
function.  The single `Ev.emailSend` event stands for the job-level side
effect `send_appointment_emails(appointment)`. -/
def sendAppointmentEmailTask (st : St) (apptUlid : String) : St × String :=
  let key := emailSentKey apptUlid
  if (cacheGet st.cache key).isSome then
    (st, "skipped")
  else
    match st.db.find? (fun a => a.ulid == apptUlid) with
    | none => (st, "not_found")
    | some _ =>
      ({ st with
           trace := st.trace ++ [Ev.emailSend "appointment_emails" apptUlid],
           cache := cacheSet st.cache key CacheVal.flag (60 * 60 * 24) },
       "sent")

/-- `emails.send_appointment_status_update_email` as the list of email-send
events it performs: early return when `old_status == new_status`, per-status
template map (no entry for `pending`), doctor copy for confirmed/cancelled. -/
def statusUpdateEmails (appt : Appointment) (ds : List Doctor)
    (oldS newS : Status) : List Ev :=
  if oldS = newS then []
  else if newS = Status.pending then []
  else
    [Ev.emailSend "status_update" appt.email] ++
      (if newS = Status.confirmed ∨ newS = Status.cancelled then
        match getDoctor ds appt.doctorId with
        | some d => if d.email == "" then [] else [Ev.emailSend "status_update" d.email]
        | none => []
      else [])

/-- `tasks.send_appointment_status_update_email_task`. -/
def sendAppointmentStatusUpdateEmailTask (st : St) (apptUlid : String)
    (oldS newS : Status) : St × String :=
  match st.db.find? (fun a => a.ulid == apptUlid) with
  | none => (st, "not_found")
  | some appt =>
    ({ st with trace := st.trace ++ statusUpdateEmails appt st.doctors oldS newS },
     "sent")

/-- Result value of `create_calendar_event_task` (`{"status": ...}` dicts). -/
inductive CalResult
  | success (eventId : String)
  | skipped (reason : String)
  | invalidDoctor
  | notFound
deriving DecidableEq

/-- `tasks.create_calendar_event_task`.  `newEventId` is the id the external
calendar API would assign; `Ev.calendarInsert` marks the external API call.
Every guard branch returns without raising. -/
def createCalendarEventTask (st : St) (apptUlid : String) (newEventId : String) :
    St × CalResult :=
  match st.db.find? (fun a => a.ulid == apptUlid) with
  | none => (st, CalResult.notFound)
  | some appt =>
    if appt.calendarEventId.isSome then
      (st, CalResult.skipped "already_exists")
    else if ¬(appt.status = Status.confirmed ∨ appt.status = Status.pending) then
      (st, CalResult.skipped appt.status.str)
    else
      match getDoctor st.doctors appt.doctorId with
      | none => (st, CalResult.invalidDoctor)
      | some d =>
        if d.email == "" then
          (st, CalResult.invalidDoctor)
        else
          ({ st with
               trace := st.trace ++ [Ev.calendarInsert apptUlid],
               db := st.db.map (fun a =>
                 if a.ulid == apptUlid then { a with calendarEventId := some newEventId }
                 else a) },
           CalResult.success newEventId)

/-- The core consistency invariant: at most one pending-or-confirmed row per
(doctor, date, time) key. -/
def slotInvariant (db : List Appointment) : Prop :=
  ∀ doctorId date time, db.countP (isActiveFor doctorId date time) ≤ 1

/-- The appointment-mutating operations of the repository. -/
inductive Op
  | book (r : BookReq) (ulid lockValue : String) (commitFails : Bool)
  | cancel (userId : Nat) (apptId : String)
  | adminSet (apptId : String) (new : Status)

/-- Whether an operation comes from the user-facing views (booking or
self-cancel) rather than the admin console. -/
def Op.isView : Op → Bool
  | .book _ _ _ _ => true
  | .cancel _ _ => true
  | .adminSet _ _ => false

/-- One transition. -/
def step (st : St) : Op → St
  | .book r u v f => (bookHandler st r u v f).1
  | .cancel uid aid => (cancelHandler st uid aid).1
  | .adminSet aid s => adminSetStatus st aid s

/-- Run a sequence of operations. -/
def run (st : St) (ops : List Op) : St := ops.foldl step st

/-- One booking attempt: request plus its fresh ulid and lock token. -/
structure BookCall where
  req : BookReq
  ulid : String
  tok : String

/-- Process booking attempts in the order the row lock serialises them. -/
def processBookings (st : St) : List BookCall → St × List Resp
  | [] => (st, [])
  | c :: rest =>
    let out := bookHandler st c.req c.ulid c.tok false
    let outRest := processBookings out.1 rest
    (outRest.1, out.2 :: outRest.2)

/-! ## Cache lemmas -/

lemma cacheGet_set_self (c : Cache) (k : String) (v : CacheVal) (ttl : Nat) :
    cacheGet (cacheSet c k v ttl) k = some v := by
  simp [cacheGet, cacheSet]

lemma cacheGet_delete_self (c : Cache) (k : String) :
    cacheGet (cacheDelete c k) k = none := by
  simp [cacheGet, cacheDelete]

lemma cacheGet_delete_cases (c : Cache) (k k0 : String) :
    cacheGet (cacheDelete c k0) k = cacheGet c k ∨
    cacheGet (cacheDelete c k0) k = none := by
  by_cases hk : (k == k0) = true
  · right; simp [cacheGet, cacheDelete, hk]
  · left; simp [cacheGet, cacheDelete, hk]

lemma orNone_chain {x y z : Option CacheVal} (h1 : x = y ∨ x = none)
    (h2 : y = z ∨ y = none) : x = z ∨ x = none := by
  rcases h1 with h1 | h1
  · rcases h2 with h2 | h2
    · exact Or.inl (h1.trans h2)
    · exact Or.inr (h1.trans h2)
  · exact Or.inr h1

lemma cacheGet_invalidate_cases (c : Cache) (a : Appointment) (k : String) :
    cacheGet (invalidateAppointmentCache c a) k = cacheGet c k ∨
    cacheGet (invalidateAppointmentCache c a) k = none := by
  unfold invalidateAppointmentCache
  exact orNone_chain (cacheGet_delete_cases _ _ _)
    (orNone_chain (cacheGet_delete_cases _ _ _)
      (orNone_chain (cacheGet_delete_cases _ _ _) (cacheGet_delete_cases _ _ _)))

lemma cacheGet_delete_none (c : Cache) (k k0 : String)
    (h : cacheGet c k = none) : cacheGet (cacheDelete c k0) k = none := by
  rcases cacheGet_delete_cases c k k0 with h' | h'
  · exact h'.trans h
  · exact h'

lemma releaseLock_lookup_none (c : Cache) (k v : String)
    (h : cacheGet c k = some (CacheVal.tok v) ∨ cacheGet c k = none) :
    cacheGet (releaseLock c k v) k = none := by
  unfold releaseLock
  rcases h with h | h
  · rw [if_pos h]; exact cacheGet_delete_self c k
  · rw [if_neg (by simp [h])]; exact h

/-! ## List counting lemmas -/

lemma countP_map_eq {α : Type} (l : List α) (f : α → α) (p : α → Bool) :
    (l.map f).countP p = l.countP (fun a => p (f a)) := by
  induction l with
  | nil => rfl
  | cons a l ih => simp [List.countP_cons, ih]

lemma countP_zero_of_any_false {α : Type} (l : List α) (p : α → Bool)
    (h : l.any p = false) : l.countP p = 0 := by
  simp only [List.any_eq_false] at h
  simp only [List.countP_eq_zero]
  exact fun a ha => by simpa using h a ha

lemma any_true_of_countP_ne_zero {α : Type} (l : List α) (p : α → Bool)
    (h : l.countP p ≠ 0) : l.any p = true := by
  by_contra hc
  exact h (countP_zero_of_any_false l p (by simpa using hc))

/-! ## Claim theorems -/

/-- Claim C2: when the slot-lock key already exists, the booking handler
returns the 409 conflict response at once, leaves the whole state unchanged
(in particular no Appointment row is created), and the lock acquisition is
the single atomic set-if-absent-with-TTL primitive `cacheAdd`, which on a
present key fails without modifying the store. -/
theorem lock_contended_returns_conflict_without_row (st : St) (r : BookReq)
    (ulid lockValue : String) (cf : Bool)
    (h : cacheGet st.cache (lockSlotKey r.doctorId r.date r.time) ≠ none) :
    bookHandler st r ulid lockValue cf = (st, lockConflictResp) ∧
    lockConflictResp.http = 409 ∧
    cacheAdd st.cache (lockSlotKey r.doctorId r.date r.time)
      (CacheVal.tok lockValue) LOCK_TTL = (st.cache, false) := by
  refine ⟨?_, rfl, ?_⟩
  · simp [bookHandler, cacheAdd, h]
  · simp [cacheAdd, h]

/-- Witness for C2 at a concrete contended state. -/
theorem lock_contended_witness :
    bookHandler
      ⟨cacheSet emptyCache (lockSlotKey 1 "2025-06-01" "10:00")
        (CacheVal.tok "OTHER") 30, [], [⟨1, "d@x"⟩], []⟩
      ⟨7, 1, "2025-06-01", "10:00", "Cleaning", "A", "a@x", "", ""⟩
      "U1" "T1" false =
      (⟨cacheSet emptyCache (lockSlotKey 1 "2025-06-01" "10:00")
        (CacheVal.tok "OTHER") 30, [], [⟨1, "d@x"⟩], []⟩, lockConflictResp) :=
  (lock_contended_returns_conflict_without_row _ _ "U1" "T1" false
    (by rw [cacheGet_set_self]; simp)).1

/-- Claim C10: the cancel view answers with the identical 404 "Appointment
not found" response, and changes nothing, whenever no appointment with the
requested ulid is owned by the requesting user — covering both the case of
an id owned by a different user and the case of an id that does not exist. -/
theorem cancel_nonowner_not_found_indistinguishable (st : St) (uid : Nat)
    (aid : String) (h : ∀ a ∈ st.db, a.ulid = aid → a.userId ≠ uid) :
    cancelHandler st uid aid = (st, cancelNotFoundResp) ∧
    cancelNotFoundResp = ⟨"error", "Appointment not found", 404⟩ := by
  have hfind : findOwned st.db aid uid = none := by
    unfold findOwned
    rw [List.find?_eq_none]
    intro a ha
    by_cases hu : a.ulid = aid
    · simp [hu, h a ha hu]
    · simp [hu]
  exact ⟨by simp [cancelHandler, hfind], rfl⟩

/-- Witness for C10: user 9 probing user 7's appointment gets the same 404
as probing an id that exists for nobody. -/
theorem cancel_nonowner_witness :
    cancelHandler
      ⟨emptyCache,
       [⟨"01A", 7, 1, "2025-06-01", "10:00", "Cleaning", "A", "a@x", "", "",
         Status.pending, none⟩], [⟨1, "d@x"⟩], []⟩ 9 "01A" =
      (⟨emptyCache,
        [⟨"01A", 7, 1, "2025-06-01", "10:00", "Cleaning", "A", "a@x", "", "",
          Status.pending, none⟩], [⟨1, "d@x"⟩], []⟩, cancelNotFoundResp) ∧
    cancelHandler
      ⟨emptyCache,
       [⟨"01A", 7, 1, "2025-06-01", "10:00", "Cleaning", "A", "a@x", "", "",
         Status.pending, none⟩], [⟨1, "d@x"⟩], []⟩ 9 "NOPE" =
      (⟨emptyCache,
        [⟨"01A", 7, 1, "2025-06-01", "10:00", "Cleaning", "A", "a@x", "", "",
          Status.pending, none⟩], [⟨1, "d@x"⟩], []⟩, cancelNotFoundResp) :=
  ⟨(cancel_nonowner_not_found_indistinguishable _ 9 "01A" (by decide)).1,
   (cancel_nonowner_not_found_indistinguishable _ 9 "NOPE" (by decide)).1⟩

/-- Concrete fixture for C7: one confirmed appointment. -/
def apptC7 : Appointment :=
  ⟨"01C7", 7, 1, "2025-06-01", "10:00", "Cleaning", "A", "a@x", "", "",
   Status.confirmed, none⟩

/-- Concrete fixture state for C7. -/
def stC7 : St := ⟨emptyCache, [apptC7], [⟨1, "d@x"⟩], []⟩

/-- Claim C7 counterexample: invoked with `old_status == new_status` the
status-update task sends no email but returns the string "sent" — the very
code it returns after an actual send (compare the `pending → confirmed`
invocation, which does send) — not a no-op result code. -/
theorem status_update_noop_returns_sent :
    (sendAppointmentStatusUpdateEmailTask stC7 "01C7" Status.confirmed
      Status.confirmed).2 = "sent" ∧
    (sendAppointmentStatusUpdateEmailTask stC7 "01C7" Status.confirmed
      Status.confirmed).1.trace = [] ∧
    (sendAppointmentStatusUpdateEmailTask stC7 "01C7" Status.pending
      Status.confirmed).2 = "sent" ∧
    (sendAppointmentStatusUpdateEmailTask stC7 "01C7" Status.pending
      Status.confirmed).1.trace ≠ [] := by
  refine ⟨rfl, by decide, rfl, by decide⟩

/-- Claim C7 amended: a status-update task invocation with
`old_status == new_status` performs no email send and leaves the state
unchanged, but its return value is "sent" (or "not_found" when the
appointment does not exist) — the task does not signal the no-op in its
result code. -/
theorem status_update_noop_sends_no_email (st : St) (aid : String) (s : Status) :
    (sendAppointmentStatusUpdateEmailTask st aid s s).1 = st ∧
    ((sendAppointmentStatusUpdateEmailTask st aid s s).2 = "sent" ∨
     (sendAppointmentStatusUpdateEmailTask st aid s s).2 = "not_found") := by
  unfold sendAppointmentStatusUpdateEmailTask
  cases hf : st.db.find? (fun a => a.ulid == aid) with
  | none => exact ⟨rfl, Or.inr rfl⟩
  | some appt =>
    refine ⟨?_, Or.inl rfl⟩
    simp [statusUpdateEmails]

/-- Concrete fixture for C9: one pending appointment with both the
availability set for its (doctor, date) and the homepage stats cached. -/
def apptC9 : Appointment :=
  ⟨"01C9", 7, 1, "2025-06-01", "10:00", "Cleaning", "A", "a@x", "", "",
   Status.pending, none⟩

/-- Concrete fixture state for C9. -/
def stC9 : St :=
  ⟨cacheSet (cacheSet emptyCache (slotsKey 1 "2025-06-01")
      (CacheVal.slots ["10:00"]) 300)
    homepageStatsKey (CacheVal.blob "stats") 1800,
   [apptC9], [⟨1, "d@x"⟩], []⟩

/-- Claim C9 failing input: an admin status change (and likewise a delete)
does not invalidate the `slots:{doctor}:{date}` key the availability read
path consults — the signal handlers delete the differently named
`available_slots:{date}:{doctor}` key nothing reads — so the next
availability query still serves the stale booked set; the delete signal
additionally leaves the homepage stats key in place. -/
theorem appointment_mutation_misses_slots_cache_key :
    (adminSetStatus stC9 "01C9" Status.cancelled).db.map (fun a => a.status) =
      [Status.cancelled] ∧
    cacheGet (adminSetStatus stC9 "01C9" Status.cancelled).cache
      (slotsKey 1 "2025-06-01") = some (CacheVal.slots ["10:00"]) ∧
    (SlotInfo.mk "10:00" "10:00 AM" false) ∈
      (checkSlots (adminSetStatus stC9 "01C9" Status.cancelled) 1 "2025-06-01").2 ∧
    bookedFromDb (adminSetStatus stC9 "01C9" Status.cancelled).db 1 "2025-06-01" =
      [] ∧
    cacheGet (deleteAppointment stC9 "01C9").cache (slotsKey 1 "2025-06-01") =
      some (CacheVal.slots ["10:00"]) ∧
    cacheGet (deleteAppointment stC9 "01C9").cache homepageStatsKey =
      some (CacheVal.blob "stats") := by
  refine ⟨by decide, by decide, by decide, by decide, by decide, by decide⟩

/-- The lock lookup after the cache writes of the successful-booking branch:
the set lock entry survives the unrelated deletions (or was deleted, in which
case it is already gone), so the token-checked release leaves no lock. -/
lemma lock_release_chain (c : Cache) (lk lv skey : String) (a : Appointment) :
    cacheGet (releaseLock
      (cacheDelete (invalidateAppointmentCache
        (cacheSet c lk (CacheVal.tok lv) LOCK_TTL) a) skey) lk lv) lk = none := by
  apply releaseLock_lookup_none
  exact orNone_chain (cacheGet_delete_cases _ _ _)
    (orNone_chain (cacheGet_invalidate_cases _ _ _)
      (Or.inl (cacheGet_set_self _ _ _ _)))

/-- Token-checked release straight after acquisition deletes the lock. -/
lemma lock_release_direct (c : Cache) (lk lv : String) :
    cacheGet (releaseLock (cacheSet c lk (CacheVal.tok lv) LOCK_TTL) lk lv) lk =
      none :=
  releaseLock_lookup_none _ _ _ (Or.inl (cacheGet_set_self _ _ _ _))

/-- Claim C3: once acquisition succeeds, every exit path of the booking
handler — success, database conflict, or exception — ends with no lock entry
for the slot key, and the release primitive is token-checked: it deletes the
key exactly when the stored value is this request's token and never touches a
lock held under a different token. -/
theorem lock_released_on_all_paths_token_checked (st : St) (r : BookReq)
    (ulid lockValue : String) (cf : Bool)
    (h : cacheGet st.cache (lockSlotKey r.doctorId r.date r.time) = none) :
    cacheGet (bookHandler st r ulid lockValue cf).1.cache
      (lockSlotKey r.doctorId r.date r.time) = none ∧
    (∀ c k v, cacheGet c k ≠ some (CacheVal.tok v) → releaseLock c k v = c) ∧
    (∀ c k v, cacheGet c k = some (CacheVal.tok v) →
      releaseLock c k v = cacheDelete c k) := by
  refine ⟨?_, fun c k v hv => by unfold releaseLock; exact if_neg hv,
    fun c k v hv => by unfold releaseLock; exact if_pos hv⟩
  by_cases hC : hasSlotConflict st.db r.doctorId r.date r.time
  · simp only [bookHandler, cacheAdd, if_pos h, hC, if_true]
    simp only [Bool.true_eq_false, if_false]
    exact lock_release_direct _ _ _
  · cases cf <;>
    · simp only [bookHandler, cacheAdd, if_pos h, hC, if_false]
      simp only [Bool.true_eq_false, if_false]
      exact lock_release_chain _ _ _ _ _

/-- Witness for C3 on a concrete uncontended booking. -/
theorem lock_released_witness :
    cacheGet
      (bookHandler ⟨emptyCache, [], [⟨1, "d@x"⟩], []⟩
        ⟨7, 1, "2025-06-01", "10:00", "Cleaning", "A", "a@x", "", ""⟩
        "01A" "T1" false).1.cache
      (lockSlotKey 1 "2025-06-01" "10:00") = none :=
  (lock_released_on_all_paths_token_checked
    ⟨emptyCache, [], [⟨1, "d@x"⟩], []⟩
    ⟨7, 1, "2025-06-01", "10:00", "Cleaning", "A", "a@x", "", ""⟩
    "01A" "T1" false rfl).1

/-- Claim C4: the booking handler's trace grows by a suffix in which the
confirmation-email and calendar-event jobs are enqueued only after the commit
event, and only on the success path; on every non-success exit (lock
contention, database conflict, rolled-back commit) no job is enqueued and no
appointment row is kept. -/
theorem jobs_enqueued_only_after_commit (st : St) (r : BookReq)
    (ulid lockValue : String) (cf : Bool) :
    ∃ delta, (bookHandler st r ulid lockValue cf).1.trace = st.trace ++ delta ∧
      ((bookHandler st r ulid lockValue cf).2.status = "success" →
        cf = false ∧ delta =
          [Ev.commit, Ev.enqueue "send_appointment_email_task" ulid,
           Ev.enqueue "create_calendar_event_task" ulid]) ∧
      ((bookHandler st r ulid lockValue cf).2.status ≠ "success" →
        (bookHandler st r ulid lockValue cf).1.db = st.db ∧
        ∀ t a, Ev.enqueue t a ∉ delta) := by
  by_cases hL : cacheGet st.cache (lockSlotKey r.doctorId r.date r.time) = none
  · by_cases hC : hasSlotConflict st.db r.doctorId r.date r.time
    · refine ⟨[Ev.commit], ?_, ?_, ?_⟩ <;>
        simp [bookHandler, cacheAdd, if_pos hL, hC, dbConflictResp]
    · cases cf
      · refine ⟨[Ev.commit, Ev.enqueue "send_appointment_email_task" ulid,
          Ev.enqueue "create_calendar_event_task" ulid], ?_, ?_, ?_⟩ <;>
          simp [bookHandler, cacheAdd, if_pos hL, hC, bookSuccessResp]
      · refine ⟨[], ?_, ?_, ?_⟩ <;>
          simp [bookHandler, cacheAdd, if_pos hL, hC, bookFailResp]
  · refine ⟨[], ?_, ?_, ?_⟩ <;>
      simp [bookHandler, cacheAdd, hL, lockConflictResp]

/-- Claim C6: with no idempotency marker present and the appointment row in
the database, the first run of the confirmation-email task sends exactly one
email, returns "sent" and stores the 24-hour marker under
`appointment_email_sent:{id}`; the second run observes the marker, changes
nothing, sends nothing and returns "skipped". -/
theorem confirmation_email_idempotent (st : St) (aid : String)
    (h1 : cacheGet st.cache (emailSentKey aid) = none)
    (h2 : (st.db.find? (fun a => a.ulid == aid)).isSome = true) :
    (sendAppointmentEmailTask st aid).2 = "sent" ∧
    (sendAppointmentEmailTask st aid).1.trace =
      st.trace ++ [Ev.emailSend "appointment_emails" aid] ∧
    (sendAppointmentEmailTask st aid).1.cache (emailSentKey aid) =
      some (CacheVal.flag, 60 * 60 * 24) ∧
    sendAppointmentEmailTask (sendAppointmentEmailTask st aid).1 aid =
      ((sendAppointmentEmailTask st aid).1, "skipped") := by
  obtain ⟨appt, hf⟩ := Option.isSome_iff_exists.mp h2
  have hnone : ((cacheGet st.cache (emailSentKey aid)).isSome = true) = False := by
    simp [h1]
  have hset : cacheGet
      (cacheSet st.cache (emailSentKey aid) CacheVal.flag (60 * 60 * 24))
      (emailSentKey aid) = some CacheVal.flag :=
    cacheGet_set_self _ _ _ _
  refine ⟨?_, ?_, ?_, ?_⟩
  · simp [sendAppointmentEmailTask, hnone, hf]
  · simp [sendAppointmentEmailTask, hnone, hf]
  · simp [sendAppointmentEmailTask, hnone, hf, cacheSet]
  · have hfirst : (sendAppointmentEmailTask st aid).1.cache =
        cacheSet st.cache (emailSentKey aid) CacheVal.flag (60 * 60 * 24) := by
      simp [sendAppointmentEmailTask, hnone, hf]
    conv_lhs => rw [sendAppointmentEmailTask]
    rw [hfirst, hset]
    simp

/-- Concrete fixture state for the C6 witness. -/
def stC6 : St :=
  ⟨emptyCache,
   [⟨"01A", 7, 1, "2025-06-01", "10:00", "Cleaning", "A", "a@x", "", "",
     Status.pending, none⟩], [⟨1, "d@x"⟩], []⟩

/-- Witness for C6: two runs on a fresh state with one pending appointment. -/
theorem confirmation_email_idempotent_witness :
    (sendAppointmentEmailTask stC6 "01A").2 = "sent" ∧
    sendAppointmentEmailTask (sendAppointmentEmailTask stC6 "01A").1 "01A" =
      ((sendAppointmentEmailTask stC6 "01A").1, "skipped") :=
  ⟨(confirmation_email_idempotent stC6 "01A" rfl rfl).1,
   (confirmation_email_idempotent stC6 "01A" rfl rfl).2.2.2⟩

/-- A `find?` by ulid commutes with a ulid-preserving row update. -/
lemma find?_ulid_map (db : List Appointment) (aid : String)
    (f : Appointment → Appointment) (hf : ∀ a, (f a).ulid = a.ulid) :
    (db.map f).find? (fun a => a.ulid == aid) =
      (db.find? (fun a => a.ulid == aid)).map f := by
  rw [List.find?_map (p := fun a => a.ulid == aid) f db]
  have he : ((fun a => a.ulid == aid) ∘ f) = (fun a : Appointment => a.ulid == aid) := by
    funext a
    simp [Function.comp, hf a]
  rw [he]

/-- Claim C8: the calendar task's domain guards: an already-present external
event id yields `skipped already_exists` with no state change and no external
call; a status outside {pending, confirmed} yields `skipped` with the status
string as reason; a missing doctor or a doctor without email yields the
distinct `invalid_doctor` result; and after a successful run a second
invocation returns `skipped already_exists` making no external call.  No
branch raises: the handler is a total function into `CalResult`. -/
theorem calendar_task_domain_guards (st : St) (aid e : String)
    (appt : Appointment)
    (hfind : st.db.find? (fun a => a.ulid == aid) = some appt) :
    (appt.calendarEventId.isSome →
      createCalendarEventTask st aid e = (st, CalResult.skipped "already_exists")) ∧
    (appt.calendarEventId = none →
      ¬(appt.status = Status.confirmed ∨ appt.status = Status.pending) →
      createCalendarEventTask st aid e = (st, CalResult.skipped appt.status.str)) ∧
    (appt.calendarEventId = none →
      (appt.status = Status.confirmed ∨ appt.status = Status.pending) →
      (getDoctor st.doctors appt.doctorId = none ∨
        ∃ d, getDoctor st.doctors appt.doctorId = some d ∧ d.email = "") →
      createCalendarEventTask st aid e = (st, CalResult.invalidDoctor)) ∧
    ((createCalendarEventTask st aid e).2 = CalResult.success e →
      ∀ e2, createCalendarEventTask (createCalendarEventTask st aid e).1 aid e2 =
        ((createCalendarEventTask st aid e).1, CalResult.skipped "already_exists")) := by
  refine ⟨?_, ?_, ?_, ?_⟩
  · intro hev
    simp [createCalendarEventTask, hfind, hev]
  · intro hev hst
    simp [createCalendarEventTask, hfind, hev, hst]
  · intro hev hst hdoc
    rcases hdoc with hd | ⟨d, hd, he⟩
    · simp [createCalendarEventTask, hfind, hev, hst, hd]
    · simp [createCalendarEventTask, hfind, hev, hst, hd, he]
  · intro hsucc e2
    by_cases hev : appt.calendarEventId.isSome
    · simp [createCalendarEventTask, hfind, hev] at hsucc
    · by_cases hst : appt.status = Status.confirmed ∨ appt.status = Status.pending
      · cases hd : getDoctor st.doctors appt.doctorId with
        | none => simp [createCalendarEventTask, hfind, hev, hst, hd] at hsucc
        | some d =>
          by_cases he : (d.email == "") = true
          · simp [createCalendarEventTask, hfind, hev, hst, hd, he] at hsucc
          · have hulid : (appt.ulid == aid) = true := by
              have hps := List.find?_some hfind
              simpa using hps
            have hsnd : (createCalendarEventTask st aid e).1.db =
                st.db.map (fun a =>
                  if a.ulid == aid then { a with calendarEventId := some e } else a) := by
              simp [createCalendarEventTask, hfind, hev, hst, hd, he]
            have hfind2 : (createCalendarEventTask st aid e).1.db.find?
                (fun a => a.ulid == aid) =
                some { appt with calendarEventId := some e } := by
              have hpres : ∀ a : Appointment,
                  ((fun a : Appointment =>
                    if a.ulid == aid then { a with calendarEventId := some e }
                    else a) a).ulid = a.ulid := by
                intro a
                dsimp only
                split <;> rfl
              rw [hsnd, find?_ulid_map _ aid _ hpres, hfind, Option.map_some']
              rw [if_pos hulid]
            generalize hG : (createCalendarEventTask st aid e).1 = st1 at hfind2 ⊢
            simp [createCalendarEventTask, hfind2]
      · simp [createCalendarEventTask, hfind, hev, hst] at hsucc

/-- Concrete fixture appointment for the C8 witness. -/
def apptC8 : Appointment :=
  ⟨"01W", 7, 1, "2025-06-01", "10:00", "Cleaning", "A", "a@x", "", "",
   Status.pending, some "EV0"⟩

/-- Concrete fixture state for the C8 witness. -/
def stC8 : St := ⟨emptyCache, [apptC8], [⟨1, "d@x"⟩], []⟩

/-- Witness for C8: an appointment that already carries an event id is
skipped with reason already_exists. -/
theorem calendar_task_domain_guards_witness :
    createCalendarEventTask stC8 "01W" "E1" =
      (stC8, CalResult.skipped "already_exists") :=
  (calendar_task_domain_guards stC8 "01W" "E1" apptC8 rfl).1 rfl

/-- Membership in the booked set computed from the database is existence of a
pending-or-confirmed row for the (doctor, date, time) key. -/
lemma mem_bookedFromDb (db : List Appointment) (d : Nat) (dt t : String) :
    t ∈ bookedFromDb db d dt ↔ ∃ a ∈ db, isActiveFor d dt t a = true := by
  unfold bookedFromDb isActiveFor
  simp only [List.mem_map, List.mem_filter, Bool.and_eq_true, Bool.or_eq_true,
    beq_iff_eq]
  aesop

/-- Three further cache deletions preserve an absent key. -/
lemma invalidateUserCache_none (c : Cache) (uid : Nat) (k : String)
    (h : cacheGet c k = none) : cacheGet (invalidateUserCache c uid) k = none := by
  unfold invalidateUserCache
  exact cacheGet_delete_none _ _ _ (cacheGet_delete_none _ _ _
    (cacheGet_delete_none _ _ _ h))

/-- When the availability cache entry is absent and no row is active for the
key, the availability endpoint reports the time slot as available. -/
lemma slot_available_after (st' : St) (d : Nat) (dt t : String)
    (hc : cacheGet st'.cache (slotsKey d dt) = none)
    (hact : ∀ a ∈ st'.db, isActiveFor d dt t a = false) :
    ∀ si ∈ (checkSlots st' d dt).2, si.time = t → si.isAvailable = true := by
  intro si hsi hts
  have hni : t ∉ bookedFromDb st'.db d dt := by
    intro hmem
    obtain ⟨a, ha, hA⟩ := (mem_bookedFromDb _ _ _ _).mp hmem
    simp [hact a ha] at hA
  simp only [checkSlots, hc] at hsi
  obtain ⟨td, htd, rfl⟩ := List.mem_map.mp hsi
  simp only at hts
  subst hts
  simpa [List.contains] using hni

/-- Setting the matching row to cancelled leaves no active row for the key,
provided no other row was active for it. -/
lemma inactive_after_set_cancelled (db : List Appointment) (aid : String)
    (d : Nat) (dt t : String)
    (h : ∀ b ∈ db, b.ulid ≠ aid → isActiveFor d dt t b = false) :
    ∀ a ∈ setStatusInDb db aid Status.cancelled, isActiveFor d dt t a = false := by
  intro a ha
  unfold setStatusInDb at ha
  obtain ⟨b, hb, rfl⟩ := List.mem_map.mp ha
  by_cases hub : (b.ulid == aid) = true
  · simp [hub, isActiveFor]
  · have hne : b.ulid ≠ aid := by simpa using hub
    simp only [hub, if_false]
    exact h b hb hne

/-- Concrete fixture for C5: one rescheduled appointment. -/
def apptC5 : Appointment :=
  ⟨"01C5", 7, 1, "2025-06-01", "10:00", "Cleaning", "A", "a@x", "", "",
   Status.rescheduled, none⟩

/-- Concrete fixture state for C5. -/
def stC5 : St := ⟨emptyCache, [apptC5], [⟨1, "d@x"⟩], []⟩

/-- Claim C5 counterexample: the user-facing cancel succeeds on a
`rescheduled` appointment — the status guard only rejects cancelled,
completed and confirmed — so "succeeds if and only if pending" is false. -/
theorem cancel_succeeds_on_rescheduled :
    (cancelHandler stC5 7 "01C5").2 = cancelSuccessResp ∧
    (cancelHandler stC5 7 "01C5").1.db.map (fun a => a.status) =
      [Status.cancelled] := by
  exact ⟨rfl, by decide⟩

/-- Claim C5 amended: the user-facing cancel succeeds iff the status is
`pending` or `rescheduled`; on success the row becomes `cancelled` and, with
no other active row for the key, the next availability query reports the
time slot available; cancelling a `confirmed` or `completed` appointment is
rejected with a 400 error response and the table is unchanged. -/
theorem cancel_status_guard_spec (st : St) (uid : Nat) (aid : String)
    (appt : Appointment) (hfind : findOwned st.db aid uid = some appt) :
    ((cancelHandler st uid aid).2 = cancelSuccessResp ↔
      (appt.status = Status.pending ∨ appt.status = Status.rescheduled)) ∧
    ((appt.status = Status.confirmed ∨ appt.status = Status.completed) →
      (cancelHandler st uid aid).2 = cancelBlockedResp appt.status.str ∧
      (cancelHandler st uid aid).2.http = 400 ∧
      (cancelHandler st uid aid).1.db = st.db) ∧
    ((appt.status = Status.pending ∨ appt.status = Status.rescheduled) →
      (cancelHandler st uid aid).1.db = setStatusInDb st.db aid Status.cancelled) ∧
    ((appt.status = Status.pending ∨ appt.status = Status.rescheduled) →
      (∀ b ∈ st.db, b.ulid ≠ aid →
        isActiveFor appt.doctorId appt.date appt.time b = false) →
      ∀ si ∈ (checkSlots (cancelHandler st uid aid).1 appt.doctorId appt.date).2,
        si.time = appt.time → si.isAvailable = true) := by
  have havail : (appt.status = Status.pending ∨ appt.status = Status.rescheduled) →
      (∀ b ∈ st.db, b.ulid ≠ aid →
        isActiveFor appt.doctorId appt.date appt.time b = false) →
      ∀ si ∈ (checkSlots (cancelHandler st uid aid).1 appt.doctorId appt.date).2,
        si.time = appt.time → si.isAvailable = true := by
    intro hs hother
    have hguard : ¬(appt.status = Status.cancelled ∨ appt.status = Status.completed ∨
        appt.status = Status.confirmed) := by
      rcases hs with hs | hs <;> simp [hs]
    have hcache : cacheGet (cancelHandler st uid aid).1.cache
        (slotsKey appt.doctorId appt.date) = none := by
      simp only [cancelHandler, hfind, hguard, if_false]
      exact invalidateUserCache_none _ _ _ (cacheGet_delete_self _ _)
    have hdb : (cancelHandler st uid aid).1.db =
        setStatusInDb st.db aid Status.cancelled := by
      simp [cancelHandler, hfind, hguard]
    apply slot_available_after _ _ _ _ hcache
    rw [hdb]
    exact inactive_after_set_cancelled _ _ _ _ _ hother
  cases hs : appt.status with
  | pending =>
    refine ⟨?_, ?_, ?_, hs ▸ havail⟩
    · simp [cancelHandler, hfind, hs, cancelSuccessResp]
    · intro hcc; rcases hcc with hcc | hcc <;> simp [hs] at hcc
    · intro _; simp [cancelHandler, hfind, hs]
  | rescheduled =>
    refine ⟨?_, ?_, ?_, hs ▸ havail⟩
    · simp [cancelHandler, hfind, hs, cancelSuccessResp]
    · intro hcc; rcases hcc with hcc | hcc <;> simp [hs] at hcc
    · intro _; simp [cancelHandler, hfind, hs]
  | confirmed =>
    refine ⟨?_, ?_, ?_, hs ▸ havail⟩
    · simp [cancelHandler, hfind, hs, cancelSuccessResp, cancelBlockedResp]
    · intro _
      refine ⟨?_, ?_, ?_⟩ <;> simp [cancelHandler, hfind, hs, cancelBlockedResp]
    · intro hp; rcases hp with hp | hp <;> simp [hs] at hp
  | completed =>
    refine ⟨?_, ?_, ?_, hs ▸ havail⟩
    · simp [cancelHandler, hfind, hs, cancelSuccessResp, cancelBlockedResp]
    · intro _
      refine ⟨?_, ?_, ?_⟩ <;> simp [cancelHandler, hfind, hs, cancelBlockedResp]
    · intro hp; rcases hp with hp | hp <;> simp [hs] at hp
  | cancelled =>
    refine ⟨?_, ?_, ?_, hs ▸ havail⟩
    · simp [cancelHandler, hfind, hs, cancelSuccessResp, cancelBlockedResp]
    · intro hcc; rcases hcc with hcc | hcc <;> simp [hs] at hcc
    · intro hp; rcases hp with hp | hp <;> simp [hs] at hp

/-- Concrete fixture for the C5 witness: one pending appointment. -/
def apptC5w : Appointment :=
  ⟨"01P", 7, 1, "2025-06-01", "10:00", "Cleaning", "A", "a@x", "", "",
   Status.pending, none⟩

/-- Concrete fixture state for the C5 witness. -/
def stC5w : St := ⟨emptyCache, [apptC5w], [⟨1, "d@x"⟩], []⟩

/-- Witness for C5: cancelling a concrete pending appointment succeeds and
the slot shows as available in the following availability query. -/
theorem cancel_status_guard_witness :
    (cancelHandler stC5w 7 "01P").2 = cancelSuccessResp ∧
    (∀ si ∈ (checkSlots (cancelHandler stC5w 7 "01P").1 1 "2025-06-01").2,
      si.time = "10:00" → si.isAvailable = true) :=
  ⟨(cancel_status_guard_spec stC5w 7 "01P" apptC5w rfl).1.mpr (Or.inl rfl),
   (cancel_status_guard_spec stC5w 7 "01P" apptC5w rfl).2.2.2 (Or.inl rfl)
     (by decide)⟩

/-- A booking step preserves the at-most-one-active-row invariant: it only
inserts a pending row after the row-locked conflict check found no active row
for the same key. -/
lemma book_preserves_invariant (st : St) (r : BookReq) (u v : String) (cf : Bool)
    (h : slotInvariant st.db) : slotInvariant (bookHandler st r u v cf).1.db := by
  by_cases hL : cacheGet st.cache (lockSlotKey r.doctorId r.date r.time) = none
  · by_cases hC : hasSlotConflict st.db r.doctorId r.date r.time
    · have hdb : (bookHandler st r u v cf).1.db = st.db := by
        simp [bookHandler, cacheAdd, if_pos hL, hC]
      rw [hdb]; exact h
    · cases cf
      · have hdb : (bookHandler st r u v false).1.db =
            st.db ++ [mkAppointment r u] := by
          simp [bookHandler, cacheAdd, if_pos hL, hC]
        rw [hdb]
        intro d dt t
        rw [List.countP_append]
        by_cases hA : isActiveFor d dt t (mkAppointment r u) = true
        · have hkey : r.doctorId = d ∧ r.date = dt ∧ r.time = t := by
            unfold isActiveFor mkAppointment at hA
            simp only [Bool.and_eq_true, beq_iff_eq] at hA
            exact ⟨hA.1.1.1, hA.1.1.2, hA.1.2⟩
          obtain ⟨hd, hdt, ht⟩ := hkey
          subst hd; subst hdt; subst ht
          have hCf : hasSlotConflict st.db r.doctorId r.date r.time = false := by
            simpa using hC
          have h0 : st.db.countP (isActiveFor r.doctorId r.date r.time) = 0 :=
            countP_zero_of_any_false _ _ (by simpa [hasSlotConflict] using hCf)
          rw [h0]
          simp [List.countP_cons, hA]
        · have hA' : isActiveFor d dt t (mkAppointment r u) = false := by
            simpa using hA
          simp only [List.countP_cons, List.countP_nil, hA', if_false]
          simpa using h d dt t
      · have hdb : (bookHandler st r u v true).1.db = st.db := by
          simp [bookHandler, cacheAdd, if_pos hL, hC]
        rw [hdb]; exact h
  · have hdb : (bookHandler st r u v cf).1.db = st.db := by
      simp [bookHandler, cacheAdd, hL]
    rw [hdb]; exact h

/-- A cancel step preserves the invariant: it can only turn an active row
into a cancelled one. -/
lemma cancel_preserves_invariant (st : St) (uid : Nat) (aid : String)
    (h : slotInvariant st.db) : slotInvariant (cancelHandler st uid aid).1.db := by
  cases hf : findOwned st.db aid uid with
  | none =>
    have hdb : (cancelHandler st uid aid).1.db = st.db := by
      simp [cancelHandler, hf]
    rw [hdb]; exact h
  | some appt =>
    by_cases hg : appt.status = Status.cancelled ∨ appt.status = Status.completed ∨
        appt.status = Status.confirmed
    · have hdb : (cancelHandler st uid aid).1.db = st.db := by
        simp [cancelHandler, hf, hg]
      rw [hdb]; exact h
    · have hdb : (cancelHandler st uid aid).1.db =
          setStatusInDb st.db aid Status.cancelled := by
        simp [cancelHandler, hf, hg]
      rw [hdb]
      intro d dt t
      unfold setStatusInDb
      rw [countP_map_eq]
      refine le_trans (List.countP_mono_left ?_) (h d dt t)
      intro a ha hpa
      by_cases hu : (a.ulid == aid) = true
      · simp only [hu, if_true] at hpa
        simp [isActiveFor] at hpa
      · simpa [hu] using hpa

/-- First booking on a free, unlocked slot: success, exactly one active row
afterwards, lock released. -/
lemma book_success_run (st : St) (r : BookReq) (u v : String)
    (h0 : st.db.countP (isActiveFor r.doctorId r.date r.time) = 0)
    (hL : cacheGet st.cache (lockSlotKey r.doctorId r.date r.time) = none) :
    (bookHandler st r u v false).2 = bookSuccessResp u ∧
    (bookHandler st r u v false).1.db.countP
      (isActiveFor r.doctorId r.date r.time) = 1 ∧
    cacheGet (bookHandler st r u v false).1.cache
      (lockSlotKey r.doctorId r.date r.time) = none := by
  have hC : hasSlotConflict st.db r.doctorId r.date r.time = false := by
    unfold hasSlotConflict
    rw [List.any_eq_false]
    intro a ha
    simpa using List.countP_eq_zero.mp h0 a ha
  refine ⟨?_, ?_, ?_⟩
  · simp [bookHandler, cacheAdd, if_pos hL, hC]
  · have hdb : (bookHandler st r u v false).1.db = st.db ++ [mkAppointment r u] := by
      simp [bookHandler, cacheAdd, if_pos hL, hC]
    rw [hdb, List.countP_append, h0]
    simp [List.countP_cons, isActiveFor, mkAppointment]
  · have hcache : (bookHandler st r u v false).1.cache =
        releaseLock
          (cacheDelete (invalidateAppointmentCache
            (cacheSet st.cache (lockSlotKey r.doctorId r.date r.time)
              (CacheVal.tok v) LOCK_TTL) (mkAppointment r u))
            (slotsKey r.doctorId r.date))
          (lockSlotKey r.doctorId r.date r.time) v := by
      simp [bookHandler, cacheAdd, if_pos hL, hC]
    rw [hcache]
    exact lock_release_chain _ _ _ _ _

/-- Booking on an occupied, unlocked slot: the row-locked check answers with
the 409 conflict, the table is unchanged, the lock released. -/
lemma book_conflict_run (st : St) (r : BookReq) (u v : String)
    (h1 : st.db.countP (isActiveFor r.doctorId r.date r.time) ≠ 0)
    (hL : cacheGet st.cache (lockSlotKey r.doctorId r.date r.time) = none) :
    (bookHandler st r u v false).2 = dbConflictResp ∧
    (bookHandler st r u v false).1.db = st.db ∧
    cacheGet (bookHandler st r u v false).1.cache
      (lockSlotKey r.doctorId r.date r.time) = none := by
  have hC : hasSlotConflict st.db r.doctorId r.date r.time = true :=
    any_true_of_countP_ne_zero _ _ h1
  refine ⟨?_, ?_, ?_⟩
  · simp [bookHandler, cacheAdd, if_pos hL, hC]
  · simp [bookHandler, cacheAdd, if_pos hL, hC]
  · have hcache : (bookHandler st r u v false).1.cache =
        releaseLock
          (cacheSet st.cache (lockSlotKey r.doctorId r.date r.time)
            (CacheVal.tok v) LOCK_TTL)
          (lockSlotKey r.doctorId r.date r.time) v := by
      simp [bookHandler, cacheAdd, if_pos hL, hC]
    rw [hcache]
    exact lock_release_direct _ _ _

/-- Unfolding equation for `processBookings` on a cons cell. -/
lemma processBookings_cons (st : St) (c : BookCall) (rest : List BookCall) :
    processBookings st (c :: rest) =
      ((processBookings (bookHandler st c.req c.ulid c.tok false).1 rest).1,
       (bookHandler st c.req c.ulid c.tok false).2 ::
         (processBookings (bookHandler st c.req c.ulid c.tok false).1 rest).2) :=
  rfl

/-- Once one active row holds the key and the lock is free, every further
booking attempt on that key answers with the database conflict and the row
count stays one. -/
lemma processBookings_all_conflict (rest : List BookCall) :
    ∀ (st : St) (d : Nat) (dt t : String),
    (∀ b ∈ rest, b.req.doctorId = d ∧ b.req.date = dt ∧ b.req.time = t) →
    st.db.countP (isActiveFor d dt t) = 1 →
    cacheGet st.cache (lockSlotKey d dt t) = none →
    (processBookings st rest).2 = rest.map (fun _ => dbConflictResp) ∧
    (processBookings st rest).1.db.countP (isActiveFor d dt t) = 1 := by
  induction rest with
  | nil => intro st d dt t _ h1 _; exact ⟨rfl, h1⟩
  | cons b rest ih =>
    intro st d dt t hks h1 hL
    obtain ⟨hbd, hbdt, hbt⟩ := hks b (List.mem_cons_self b rest)
    subst hbd; subst hbdt; subst hbt
    have hcf := book_conflict_run st b.req b.ulid b.tok (by rw [h1]; simp) hL
    have h1' : (bookHandler st b.req b.ulid b.tok false).1.db.countP
        (isActiveFor b.req.doctorId b.req.date b.req.time) = 1 := by
      rw [hcf.2.1]; exact h1
    have hrest := ih (bookHandler st b.req b.ulid b.tok false).1
      b.req.doctorId b.req.date b.req.time
      (fun x hx => hks x (List.mem_cons_of_mem b hx)) h1' hcf.2.2
    rw [processBookings_cons]
    exact ⟨by rw [List.map_cons, hcf.1, hrest.1], hrest.2⟩

/-- Claim C1 amended: (1) the at-most-one-pending-or-confirmed-row invariant
is preserved by every sequence of user-facing view operations (booking and
self-cancel) — it is the admin status-change path that can break it, see the
counterexample — and (2) among any number of serialised booking attempts on
the identical free (doctor, date, time) key, exactly the first succeeds,
every other receives the 409 conflict response, and exactly one active row
holds the key afterwards. -/
theorem slot_invariant_views_and_unique_winner :
    (∀ (st : St) (ops : List Op), slotInvariant st.db →
      (∀ op ∈ ops, op.isView = true) → slotInvariant (run st ops).db) ∧
    (∀ (st : St) (c : BookCall) (rest : List BookCall) (d : Nat) (dt t : String),
      (∀ b ∈ c :: rest, b.req.doctorId = d ∧ b.req.date = dt ∧ b.req.time = t) →
      st.db.countP (isActiveFor d dt t) = 0 →
      cacheGet st.cache (lockSlotKey d dt t) = none →
      (processBookings st (c :: rest)).2 =
        bookSuccessResp c.ulid :: rest.map (fun _ => dbConflictResp) ∧
      (processBookings st (c :: rest)).1.db.countP (isActiveFor d dt t) = 1) := by
  constructor
  · intro st ops
    induction ops generalizing st with
    | nil => intro h _; exact h
    | cons op ops ih =>
      intro h hv
      have hop := hv op (List.mem_cons_self op ops)
      have hops : ∀ o ∈ ops, o.isView = true :=
        fun o ho => hv o (List.mem_cons_of_mem op ho)
      show slotInvariant (run (step st op) ops).db
      refine ih (step st op) ?_ hops
      cases op with
      | book r u v f => exact book_preserves_invariant st r u v f h
      | cancel uid aid => exact cancel_preserves_invariant st uid aid h
      | adminSet aid s => simp [Op.isView] at hop
  · intro st c rest d dt t hks h0 hL
    obtain ⟨hcd, hcdt, hct⟩ := hks c (List.mem_cons_self c rest)
    subst hcd; subst hcdt; subst hct
    have hsucc := book_success_run st c.req c.ulid c.tok h0 hL
    have hrest := processBookings_all_conflict rest
      (bookHandler st c.req c.ulid c.tok false).1
      c.req.doctorId c.req.date c.req.time
      (fun x hx => hks x (List.mem_cons_of_mem c hx)) hsucc.2.1 hsucc.2.2
    rw [processBookings_cons]
    refine ⟨?_, hrest.2⟩
    show (bookHandler st c.req c.ulid c.tok false).2 ::
        (processBookings (bookHandler st c.req c.ulid c.tok false).1 rest).2 = _
    rw [hsucc.1, hrest.1]

/-- Concrete booking request fixture for C1 (user 7). -/
def bookReqC1a : BookReq :=
  ⟨7, 1, "2025-06-01", "10:00", "Cleaning", "A", "a@x", "", ""⟩

/-- Concrete booking request fixture for C1 (user 8, same slot). -/
def bookReqC1b : BookReq :=
  ⟨8, 1, "2025-06-01", "10:00", "Cleaning", "B", "b@x", "", ""⟩

/-- Empty initial state fixture for C1. -/
def st0C1 : St := ⟨emptyCache, [], [⟨1, "d@x"⟩], []⟩

/-- Reachable operation sequence for the C1 counterexample: book, self-cancel,
rebook by another user, then an admin action re-confirms the cancelled row. -/
def opsC1 : List Op :=
  [Op.book bookReqC1a "01A" "T1" false, Op.cancel 7 "01A",
   Op.book bookReqC1b "01B" "T2" false, Op.adminSet "01A" Status.confirmed]

/-- Claim C1 counterexample: the state reached by booking a slot, cancelling
it, booking it again with another user and then having the admin console mark
the first appointment `confirmed` (no conflict check on that path) carries
two pending-or-confirmed rows for the same (doctor, date, time) key, so the
invariant does not hold for every reachable state. -/
theorem slot_invariant_breaks_under_admin_status_change :
    ¬ slotInvariant (run st0C1 opsC1).db := by
  intro h
  have h1 := h 1 "2025-06-01" "10:00"
  have h2 : (run st0C1 opsC1).db.countP (isActiveFor 1 "2025-06-01" "10:00") = 2 := by
    decide
  rw [h2] at h1
  exact absurd h1 (by decide)

/-- Witness for C1: the invariant bound at a concrete key after a concrete
view-only run, and two serialised bookings of the same slot where the first
succeeds and the second gets the conflict answer. -/
theorem slot_invariant_unique_winner_witness :
    (run st0C1 [Op.cancel 7 "NOPE"]).db.countP
      (isActiveFor 1 "2025-06-01" "10:00") ≤ 1 ∧
    (processBookings st0C1
      [⟨bookReqC1a, "01A", "T1"⟩, ⟨bookReqC1b, "01B", "T2"⟩]).2 =
      [bookSuccessResp "01A", dbConflictResp] := by
  constructor
  · exact slot_invariant_views_and_unique_winner.1 st0C1 [Op.cancel 7 "NOPE"]
      (fun d dt t => by simp [st0C1])
      (fun op hop => by rw [List.mem_singleton.mp hop]; rfl) 1 "2025-06-01" "10:00"
  · have hw := (slot_invariant_views_and_unique_winner.2 st0C1
      ⟨bookReqC1a, "01A", "T1"⟩ [⟨bookReqC1b, "01B", "T2"⟩]
      1 "2025-06-01" "10:00"
      (by
        intro b hb
        simp only [List.mem_cons, List.not_mem_nil, or_false] at hb
        rcases hb with rfl | rfl <;> exact ⟨rfl, rfl, rfl⟩)
      rfl rfl).1
    simpa using hw

end Oroshine
